import Mathlib

set_option maxRecDepth 8192

/-!
Verification model of the recipe REST API
(`controllers/recipeController.js` over Express and Mongoose).

The five request handlers are embedded as pure Lean functions.  The
document store is a list of typed recipe documents; store failures are
injected through an explicit `fault` parameter so that the catch blocks
of the handlers can be exercised.  JavaScript numeric coercion is
modelled exactly where the source relies on it: query parameters arrive
as raw strings, subtraction, multiplication, division and the ceiling
operation follow the JavaScript evaluation rules, and NaN and the two
infinities are represented explicitly.  Finite JavaScript numbers are
modelled as exact rationals; this is faithful on the integral values
that occur in the pagination arithmetic (doubles are exact below 2^53).
-/

/-- A JavaScript number: a finite value (modelled as an exact rational),
NaN, positive infinity, or negative infinity.  Negative zero is
identified with zero; none of the modelled computations distinguish
them. -/
inductive JNum : Type
  | num (q : ℚ)
  | nan
  | inf
  | ninf
deriving DecidableEq

/-- JavaScript unary minus on numbers. -/
def jsNeg : JNum → JNum
  | .num q => .num (-q)
  | .nan => .nan
  | .inf => .ninf
  | .ninf => .inf

/-- JavaScript subtraction (`a - b`) on numbers, following IEEE-754
special-value rules. -/
def jsSub : JNum → JNum → JNum
  | .nan, _ => .nan
  | _, .nan => .nan
  | .inf, .inf => .nan
  | .inf, _ => .inf
  | .ninf, .ninf => .nan
  | .ninf, _ => .ninf
  | .num _, .inf => .ninf
  | .num _, .ninf => .inf
  | .num a, .num b => .num (a - b)

/-- JavaScript multiplication (`a * b`) on numbers, following IEEE-754
special-value rules (infinity times zero is NaN). -/
def jsMul : JNum → JNum → JNum
  | .nan, _ => .nan
  | _, .nan => .nan
  | .num a, .num b => .num (a * b)
  | .inf, .inf => .inf
  | .inf, .ninf => .ninf
  | .ninf, .inf => .ninf
  | .ninf, .ninf => .inf
  | .inf, .num b => if 0 < b then .inf else if b < 0 then .ninf else .nan
  | .num a, .inf => if 0 < a then .inf else if a < 0 then .ninf else .nan
  | .ninf, .num b => if 0 < b then .ninf else if b < 0 then .inf else .nan
  | .num a, .ninf => if 0 < a then .ninf else if a < 0 then .inf else .nan

/-- JavaScript division (`a / b`) on numbers: division by zero yields a
signed infinity (NaN for zero over zero), in accordance with IEEE-754. -/
def jsDiv : JNum → JNum → JNum
  | .nan, _ => .nan
  | _, .nan => .nan
  | .num a, .num b =>
      if b = 0 then (if 0 < a then .inf else if a < 0 then .ninf else .nan)
      else .num (a / b)
  | .num _, .inf => .num 0
  | .num _, .ninf => .num 0
  | .inf, .num b => if b < 0 then .ninf else .inf
  | .ninf, .num b => if b < 0 then .inf else .ninf
  | .inf, .inf => .nan
  | .inf, .ninf => .nan
  | .ninf, .inf => .nan
  | .ninf, .ninf => .nan

/-- JavaScript `Math.ceil`, extended to the special values as in the
ECMAScript specification. -/
def jsCeil : JNum → JNum
  | .num q => .num ((⌈q⌉ : ℤ) : ℚ)
  | .nan => .nan
  | .inf => .inf
  | .ninf => .ninf

/-- Decimal digit test used by the string-to-number coercion model. -/
def jsDigit (c : Char) : Bool := decide ('0' ≤ c) && decide (c ≤ '9')

/-- Value of a list of decimal digits. -/
def digitsToNat (l : List Char) : ℕ :=
  l.foldl (fun a c => 10 * a + (c.toNat - 48)) 0

/-- Hexadecimal digit test. -/
def hexDigit (c : Char) : Bool :=
  jsDigit c || (decide ('a' ≤ c) && decide (c ≤ 'f')) ||
    (decide ('A' ≤ c) && decide (c ≤ 'F'))

/-- Binary digit test. -/
def binDigit (c : Char) : Bool := c = '0' || c = '1'

/-- Octal digit test. -/
def octDigit (c : Char) : Bool := decide ('0' ≤ c) && decide (c ≤ '7')

/-- Value of one hexadecimal digit. -/
def hexVal (c : Char) : ℕ :=
  if jsDigit c then c.toNat - 48
  else if 'a' ≤ c then c.toNat - 87
  else c.toNat - 55

/-- Value of a digit list in a given radix (digits valued by `hexVal`). -/
def radixToNat (r : ℕ) (l : List Char) : ℕ :=
  l.foldl (fun a c => r * a + hexVal c) 0

/-- White-space characters stripped by the JavaScript string-to-number
coercion. -/
def jsWhitespace (c : Char) : Bool :=
  c = ' ' || c = '\t' || c = '\n' || c = '\r' || c = '\x0b' ||
    c = '\x0c' || c = ' ' || c = '﻿'

/-- Strip leading and trailing JavaScript white space. -/
def trimJs (l : List Char) : List Char :=
  ((l.dropWhile jsWhitespace).reverse.dropWhile jsWhitespace).reverse

/-- Parse the optional exponent suffix of a decimal numeral; `none`
denotes a malformed tail (which makes the whole coercion yield NaN). -/
def parseExpPart : List Char → Option ℤ
  | [] => some 0
  | c :: r =>
      if c = 'e' ∨ c = 'E' then
        match r with
        | '+' :: d =>
            if !d.isEmpty && d.all jsDigit then some (digitsToNat d) else none
        | '-' :: d =>
            if !d.isEmpty && d.all jsDigit then some (-(digitsToNat d : ℤ)) else none
        | d =>
            if !d.isEmpty && d.all jsDigit then some (digitsToNat d) else none
      else none

/-- Parse an unsigned decimal numeral (integer part, optional fraction,
optional exponent) as an exact rational. -/
def parseUnsignedDec (l : List Char) : Option ℚ :=
  let ip := l.takeWhile jsDigit
  let r1 := l.dropWhile jsDigit
  match r1 with
  | '.' :: r2 =>
      let fp := r2.takeWhile jsDigit
      let r3 := r2.dropWhile jsDigit
      if ip.isEmpty && fp.isEmpty then none
      else (parseExpPart r3).map (fun e =>
        ((digitsToNat ip : ℚ) + (digitsToNat fp : ℚ) / (10 : ℚ) ^ fp.length) *
          (10 : ℚ) ^ e)
  | r2 =>
      if ip.isEmpty then none
      else (parseExpPart r2).map (fun e => (digitsToNat ip : ℚ) * (10 : ℚ) ^ e)

/-- An unsigned numeric string body: the literal `Infinity` or an
unsigned decimal numeral; anything else coerces to NaN. -/
def unsignedPart (l : List Char) : JNum :=
  if l = "Infinity".data then .inf
  else match parseUnsignedDec l with
    | some q => .num q
    | none => .nan

/-- A radix-prefixed numeral body (after `0x`, `0b`, `0o`): NaN unless
non-empty and all digits are valid for the radix. -/
def radixNum (r : ℕ) (dig : Char → Bool) (l : List Char) : JNum :=
  if !l.isEmpty && l.all dig then .num (radixToNat r l) else .nan

/-- The JavaScript `ToNumber` coercion on strings, as triggered by
`Number(size)`, `page - 1` and `totalRecipes / size` in the list
handler: trim white space, the empty string is 0, an optional sign
applies to a decimal numeral or `Infinity`, unsigned hexadecimal,
binary and octal prefixed numerals are accepted, and every other string
coerces to NaN. -/
def toNumber (s : String) : JNum :=
  match trimJs s.data with
  | [] => .num 0
  | '+' :: r => unsignedPart r
  | '-' :: r => jsNeg (unsignedPart r)
  | '0' :: 'x' :: r => radixNum 16 hexDigit r
  | '0' :: 'X' :: r => radixNum 16 hexDigit r
  | '0' :: 'b' :: r => radixNum 2 binDigit r
  | '0' :: 'B' :: r => radixNum 2 binDigit r
  | '0' :: 'o' :: r => radixNum 8 octDigit r
  | '0' :: 'O' :: r => radixNum 8 octDigit r
  | l => unsignedPart l

/-- A JavaScript value as it can appear for a destructured query
parameter: the raw string when the parameter is present, or a number
when the destructuring default was taken. -/
inductive JVal : Type
  | vstr (s : String)
  | vnum (n : JNum)
deriving DecidableEq

/-- `ToNumber` on such a value: strings are coerced, numbers pass
through. -/
def jvToNum : JVal → JNum
  | .vstr s => toNumber s
  | .vnum n => n

/-- The value of a destructured query parameter with a numeric default:
`const { page = 1, size = 10 } = req.query` yields the raw string when
the parameter is present (even empty) and the default number only when
it is absent. -/
def queryParamVal (q : Option String) (dflt : ℚ) : JVal :=
  match q with
  | some s => .vstr s
  | none => .vnum (.num dflt)

/-!
## Data model and document store

The recipe schema (`models/Recipe.js`, reproduced in `notes.md`):
`name : String` (required), `ingredients : [String]` (required),
`instructions : String` (required), `cookingTime : Number` (required),
`createdAt : Date` (default `Date.now`).  Object identifiers are
modelled as natural numbers, timestamps as natural numbers, and the
collection as a list of documents in natural (insertion) order.
-/

/-- A persisted recipe document. -/
structure RecipeDoc : Type where
  id : ℕ
  name : String
  ingredients : List String
  instructions : String
  cookingTime : ℚ
  createdAt : ℕ
deriving DecidableEq

/-- The recipe collection, in natural store order. -/
abbrev Store := List RecipeDoc

/-- A request body for create or update: a partial mapping of schema
fields (Mongoose strict mode strips fields outside the schema, so only
schema fields are representable). -/
structure RecipePayload : Type where
  name : Option String := none
  ingredients : Option (List String) := none
  instructions : Option String := none
  cookingTime : Option ℚ := none
  createdAt : Option ℕ := none
deriving DecidableEq

/-- Mongoose `required` validation run by `save()`: the four business
fields must be present, and the required validator on `String` fields
additionally rejects empty strings. -/
def validNewRecipe (p : RecipePayload) : Bool :=
  (match p.name with | some n => !n.isEmpty | none => false) &&
  p.ingredients.isSome &&
  (match p.instructions with | some i => !i.isEmpty | none => false) &&
  p.cookingTime.isSome

/-- The document built by `new Recipe(req.body)` for a payload that
passed validation: supplied fields are taken from the payload, the
identifier is assigned by the store, and `createdAt` defaults to the
current time when not supplied. -/
def buildRecipe (newId now : ℕ) (p : RecipePayload) : RecipeDoc :=
  { id := newId
    name := p.name.getD ""
    ingredients := p.ingredients.getD []
    instructions := p.instructions.getD ""
    cookingTime := p.cookingTime.getD 0
    createdAt := p.createdAt.getD now }

/-- The `$set` merge applied by `findByIdAndUpdate(id, body)`: each
supplied field replaces the stored one, absent fields are untouched,
and the identifier is never part of the update. -/
def applyUpdate (d : RecipeDoc) (p : RecipePayload) : RecipeDoc :=
  { id := d.id
    name := p.name.getD d.name
    ingredients := p.ingredients.getD d.ingredients
    instructions := p.instructions.getD d.instructions
    cookingTime := p.cookingTime.getD d.cookingTime
    createdAt := p.createdAt.getD d.createdAt }

/-- Mongoose cast of a path parameter to an ObjectId: a 24-character
hexadecimal string (the canonical ObjectId text form) parses to its
value, anything else raises a cast error.  (Mongoose also accepts raw
12-byte strings; that exotic form is outside the modelled input
space.) -/
def castObjectId (s : String) : Option ℕ :=
  let l := s.data
  if l.length = 24 && l.all hexDigit then some (radixToNat 16 l) else none

/-- Find the document with the given identifier (first match in store
order, as `findById` returns a single matching document). -/
def findDoc (docs : Store) (oid : ℕ) : Option RecipeDoc :=
  docs.find? (fun d => d.id == oid)

/-- Replace the first document with the given identifier. -/
def replaceDoc (docs : Store) (oid : ℕ) (d : RecipeDoc) : Store :=
  match docs with
  | [] => []
  | x :: t => if x.id == oid then d :: t else x :: replaceDoc t oid d

/-- Remove the first document with the given identifier, as
`findByIdAndDelete` removes a single document. -/
def removeDoc (docs : Store) (oid : ℕ) : Store :=
  match docs with
  | [] => []
  | x :: t => if x.id == oid then t else x :: removeDoc t oid

/-!
## Store operations (the Record Accessor)

Each operation takes a `fault : Option String` injection point: when a
fault is present every store call raises it, modelling a connectivity
or server failure, so that the catch blocks of the handlers can be
exercised.  Errors are modelled as `Except String`.
-/

/-- MongoDB `find().skip(sk).limit(li)` semantics on the collection:
the skip value must be a non-negative integral number (NaN, infinite,
negative or fractional skip values are rejected by the store); a limit
of 0 means no limit, a negative integral limit returns at most its
absolute value, and a non-integral, NaN or infinite limit is
rejected. -/
def findSkipLimit (docs : Store) (sk li : JNum) : Option Store :=
  match sk with
  | .num q =>
      if q.den = 1 && decide (0 ≤ q) then
        let dropped := docs.drop q.num.toNat
        match li with
        | .num l =>
            if l.den = 1 then
              some (if l = 0 then dropped else dropped.take l.num.natAbs)
            else none
        | _ => none
      else none
  | _ => none

/-- `Recipe.find().skip(sk).limit(li)` through the fault injection
point. -/
def dbFind (fault : Option String) (docs : Store) (sk li : JNum) :
    Except String Store :=
  match fault with
  | some m => .error m
  | none =>
      match findSkipLimit docs sk li with
      | some l => .ok l
      | none => .error "invalid skip or limit value"

/-- `Recipe.countDocuments()`: the unfiltered size of the collection. -/
def dbCount (fault : Option String) (docs : Store) : Except String ℕ :=
  match fault with
  | some m => .error m
  | none => .ok docs.length

/-- `Recipe.findById(oid)` on an already cast identifier. -/
def dbFindById (fault : Option String) (docs : Store) (oid : ℕ) :
    Except String (Option RecipeDoc) :=
  match fault with
  | some m => .error m
  | none => .ok (findDoc docs oid)

/-- `recipe.save()` for a new document: validation error, injected
fault, or duplicate-key error, otherwise the document is appended to
the collection. -/
def dbInsert (fault : Option String) (docs : Store) (d : RecipeDoc)
    (valid : Bool) : Except String Store :=
  if !valid then .error "Recipe validation failed"
  else match fault with
    | some m => .error m
    | none =>
        if docs.any (fun x => x.id == d.id) then .error "duplicate key error"
        else .ok (docs ++ [d])

/-!
## Request handlers (`controllers/recipeController.js`)

Each handler mirrors its source function.  A raised error
(`Except.error`, or a failed ObjectId cast) at any point of the try
block lands in the catch block, which answers with the
handler-specific 500 message and the raised error message; the
explicit matches below place that conversion at every raising site,
which is exactly the transfer behaviour of the try/catch in the
source. -/

/-- Response of the create handler: `res.status(201).json(recipe)` or
`res.status(500).json({ message, error })`. -/
inductive CreateResult : Type
  | created (recipe : RecipeDoc)
  | err500 (message error : String)
deriving DecidableEq

/-- HTTP status of a create response. -/
def CreateResult.status : CreateResult → ℕ
  | .created _ => 201
  | .err500 _ _ => 500

/-- Success body of the list handler: `res.json({ recipes,
totalRecipes, page, totalPages })` — exactly these four fields. -/
structure ListBody : Type where
  recipes : List RecipeDoc
  totalRecipes : ℕ
  page : JVal
  totalPages : JNum
deriving DecidableEq

/-- Response of the list handler. -/
inductive ListResult : Type
  | ok (body : ListBody)
  | err500 (message error : String)
deriving DecidableEq

/-- HTTP status of a list response. -/
def ListResult.status : ListResult → ℕ
  | .ok _ => 200
  | .err500 _ _ => 500

/-- Response of the get-by-id and update handlers: `res.json(recipe)`,
`res.status(404).json({ message })`, or `res.status(500).json({
message, error })`. -/
inductive DocResult : Type
  | ok (recipe : RecipeDoc)
  | notFound (message : String)
  | err500 (message error : String)
deriving DecidableEq

/-- HTTP status of a document response. -/
def DocResult.status : DocResult → ℕ
  | .ok _ => 200
  | .notFound _ => 404
  | .err500 _ _ => 500

/-- Response of the delete handler. -/
inductive DeleteResult : Type
  | okMsg (message : String)
  | notFound (message : String)
  | err500 (message error : String)
deriving DecidableEq

/-- HTTP status of a delete response. -/
def DeleteResult.status : DeleteResult → ℕ
  | .okMsg _ => 200
  | .notFound _ => 404
  | .err500 _ _ => 500

/-- `exports.createRecipe`: build the document from the body, save it,
answer 201 with the persisted record, or 500 with `Error creating
recipe` and the raised message.  The store state is returned alongside
the response. -/
def createRecipe (fault : Option String) (docs : Store) (newId now : ℕ)
    (p : RecipePayload) : CreateResult × Store :=
  let recipe := buildRecipe newId now p
  match dbInsert fault docs recipe (validNewRecipe p) with
  | .ok docs2 => (.created recipe, docs2)
  | .error e => (.err500 "Error creating recipe" e, docs)

/-- The skip value `(page - 1) * size` computed by the list handler:
JavaScript coerces both destructured query values with `ToNumber`. -/
def skipVal (pageQ sizeQ : Option String) : JNum :=
  jsMul (jsSub (jvToNum (queryParamVal pageQ 1)) (.num 1))
    (jvToNum (queryParamVal sizeQ 10))

/-- The `totalPages` value `Math.ceil(totalRecipes / size)` computed by
the list handler. -/
def totalPagesVal (totalRecipes : ℕ) (sizeV : JVal) : JNum :=
  jsCeil (jsDiv (.num (totalRecipes : ℚ)) (jvToNum sizeV))

/-- `exports.getAllRecipes`: destructure `page` and `size` with
defaults 1 and 10, fetch the page with skip `(page - 1) * size` and
limit `Number(size)`, count all documents, and answer with the body
`{ recipes, totalRecipes, page, totalPages }`; any raised error is
answered as 500 with `Error fetching recipes`. -/
def getAllRecipes (fault : Option String) (docs : Store)
    (pageQ sizeQ : Option String) : ListResult :=
  match dbFind fault docs (skipVal pageQ sizeQ) (jvToNum (queryParamVal sizeQ 10)) with
  | .error e => .err500 "Error fetching recipes" e
  | .ok recipes =>
      match dbCount fault docs with
      | .error e => .err500 "Error fetching recipes" e
      | .ok total =>
          .ok ⟨recipes, total, queryParamVal pageQ 1,
               totalPagesVal total (queryParamVal sizeQ 10)⟩

/-- `exports.getRecipeById`: cast the path parameter (a cast failure is
a raised error), look the document up, answer 404 `Recipe not found`
when absent, the document when present, and 500 with `Error fetching
recipe` for any raised error. -/
def getRecipeById (fault : Option String) (docs : Store) (idStr : String) :
    DocResult :=
  match castObjectId idStr with
  | none => .err500 "Error fetching recipe" "Cast to ObjectId failed"
  | some oid =>
      match dbFindById fault docs oid with
      | .error e => .err500 "Error fetching recipe" e
      | .ok none => .notFound "Recipe not found"
      | .ok (some d) => .ok d

/-- `exports.updateRecipe`: cast the identifier, apply the `$set` merge
`findByIdAndUpdate(id, body, { new: true })` and answer with the
post-update document, 404 `Recipe not found` when the identifier does
not resolve, or 500 with `Error updating recipe` for a raised error.
The store state is returned alongside the response. -/
def updateRecipe (fault : Option String) (docs : Store) (idStr : String)
    (p : RecipePayload) : DocResult × Store :=
  match castObjectId idStr with
  | none => (.err500 "Error updating recipe" "Cast to ObjectId failed", docs)
  | some oid =>
      match dbFindById fault docs oid with
      | .error e => (.err500 "Error updating recipe" e, docs)
      | .ok none => (.notFound "Recipe not found", docs)
      | .ok (some d) => (.ok (applyUpdate d p), replaceDoc docs oid (applyUpdate d p))

/-- `exports.deleteRecipe`: cast the identifier, remove the document,
answer `{ message: Recipe deleted }`, 404 `Recipe not found` when the
identifier does not resolve, or 500 with `Error deleting recipe` for a
raised error.  The store state is returned alongside the response. -/
def deleteRecipe (fault : Option String) (docs : Store) (idStr : String) :
    DeleteResult × Store :=
  match castObjectId idStr with
  | none => (.err500 "Error deleting recipe" "Cast to ObjectId failed", docs)
  | some oid =>
      match dbFindById fault docs oid with
      | .error e => (.err500 "Error deleting recipe" e, docs)
      | .ok none => (.notFound "Recipe not found", docs)
      | .ok (some _) => (.okMsg "Recipe deleted", removeDoc docs oid)

/-- The list of recipes carried by a successful list response (empty
for an error response); used to state pagination coverage. -/
def listRecipesOf : ListResult → List RecipeDoc
  | .ok b => b.recipes
  | .err500 _ _ => []

/-- The page of records produced by the list handler, as a function of
the coerced page and size values only: the echoed raw page value does
not influence the fetched records. -/
def pageSlice (docs : Store) (pj sj : JNum) : List RecipeDoc :=
  match findSkipLimit docs (jsMul (jsSub pj (.num 1)) sj) sj with
  | some l => l
  | none => []

/-!
## Concrete documents used by witnesses and counterexamples
-/

/-- A sample stored recipe with identifier 1. -/
def soup : RecipeDoc := ⟨1, "Soup", ["water", "salt"], "Boil.", 10, 0⟩

/-- A sample stored recipe with identifier 2. -/
def stew : RecipeDoc := ⟨2, "Stew", ["beef"], "Simmer.", 90, 5⟩

/-- A sample stored recipe with identifier 3. -/
def cake : RecipeDoc := ⟨3, "Cake", ["flour", "eggs"], "Bake.", 45, 7⟩


/-!
## Helper lemmas
-/

/-- Splitting a list into consecutive chunks of size `s` at offsets
`0, s, 2s, ...` loses and duplicates nothing once `k * s` covers the
whole list; chunks beyond the end are empty. -/
theorem chunks_flatten {α : Type} (s : ℕ) :
    ∀ (k : ℕ) (l : List α), l.length ≤ k * s →
      ((List.range k).map (fun i => (l.drop (i * s)).take s)).flatten = l := by
  intro k
  induction k with
  | zero =>
      intro l h
      simp only [Nat.zero_mul, Nat.le_zero, List.length_eq_zero] at h
      simp [h]
  | succ n ih =>
      intro l h
      rw [List.range_succ_eq_map, List.map_cons, List.map_map, List.flatten_cons]
      have h2 : (List.range n).map ((fun i => (l.drop (i * s)).take s) ∘ Nat.succ) =
          (List.range n).map (fun i => ((l.drop s).drop (i * s)).take s) :=
        List.map_congr_left (fun i _ => by
          simp only [Function.comp_apply, List.drop_drop]
          have he : i.succ * s = s + i * s := by rw [Nat.succ_mul]; ring
          rw [he])
      rw [Nat.add_mul, Nat.one_mul] at h
      rw [h2, ih (l.drop s) (by simp only [List.length_drop]; omega)]
      simp [List.take_append_drop]

/-- The modelled skip/limit fetch on a natural skip and a positive
natural limit is drop-then-take. -/
theorem findSkipLimit_natCast (docs : Store) (m s : ℕ) (hs1 : 1 ≤ s) :
    findSkipLimit docs (.num (m : ℚ)) (.num (s : ℚ)) =
      some ((docs.drop m).take s) := by
  unfold findSkipLimit
  simp only [Rat.den_natCast, Rat.num_natCast, Int.toNat_natCast]
  rw [if_pos (by simp [Nat.cast_nonneg])]
  rw [if_pos (by simp)]
  rw [if_neg (by exact_mod_cast Nat.one_le_iff_ne_zero.mp hs1)]
  simp [Int.natAbs_ofNat]

/-- Evaluation of the list handler on a fault-free store when both
coerced parameters are positive naturals. -/
theorem getAll_eval (docs : Store) (pageQ sizeQ : Option String) (p s : ℕ)
    (hp : jvToNum (queryParamVal pageQ 1) = .num (p : ℚ))
    (hs : jvToNum (queryParamVal sizeQ 10) = .num (s : ℚ))
    (hp1 : 1 ≤ p) (hs1 : 1 ≤ s) :
    getAllRecipes none docs pageQ sizeQ =
      .ok ⟨(docs.drop ((p - 1) * s)).take s, docs.length, queryParamVal pageQ 1,
           .num ((⌈(docs.length : ℚ) / (s : ℚ)⌉ : ℤ) : ℚ)⟩ := by
  have hskip : skipVal pageQ sizeQ = .num (((p - 1) * s : ℕ) : ℚ) := by
    unfold skipVal
    rw [hp, hs]
    simp only [jsSub, jsMul]
    congr 1
    rw [Nat.cast_mul, Nat.cast_sub hp1, Nat.cast_one]
  have htot : totalPagesVal docs.length (queryParamVal sizeQ 10) =
      .num ((⌈(docs.length : ℚ) / (s : ℚ)⌉ : ℤ) : ℚ) := by
    unfold totalPagesVal
    rw [hs]
    simp only [jsDiv]
    rw [if_neg (by exact_mod_cast Nat.one_le_iff_ne_zero.mp hs1)]
    simp [jsCeil]
  unfold getAllRecipes
  rw [hskip, hs]
  simp only [dbFind, dbCount, findSkipLimit_natCast docs _ s hs1, htot]

/-- The fetched records of a list response are a function of the
coerced parameter values. -/
theorem listRecipesOf_getAll (docs : Store) (pr sr : String) :
    listRecipesOf (getAllRecipes none docs (some pr) (some sr)) =
      pageSlice docs (toNumber pr) (toNumber sr) := by
  unfold getAllRecipes pageSlice skipVal dbFind dbCount
  simp only [queryParamVal, jvToNum]
  cases findSkipLimit docs (jsMul (jsSub (toNumber pr) (.num 1)) (toNumber sr)) (toNumber sr) with
  | none => rfl
  | some l => rfl

/-- The fetched page for coerced page `i + 1` and size `s` is the
chunk of the store at offset `i * s`. -/
theorem pageSlice_eval (docs : Store) (i s : ℕ) (hs1 : 1 ≤ s) :
    pageSlice docs (.num ((i : ℚ) + 1)) (.num (s : ℚ)) =
      (docs.drop (i * s)).take s := by
  unfold pageSlice
  have h1 : jsMul (jsSub (.num ((i : ℚ) + 1)) (.num 1)) (.num (s : ℚ)) =
      JNum.num ((i * s : ℕ) : ℚ) := by
    simp only [jsSub, jsMul]
    congr 1
    push_cast
    ring
  rw [h1, findSkipLimit_natCast docs _ s hs1]

/-- The reported page count times the page size covers the whole
collection. -/
theorem coverage (N s tp : ℕ) (hs1 : 1 ≤ s)
    (hceil : ⌈(N : ℚ) / (s : ℚ)⌉ = (tp : ℤ)) : N ≤ tp * s := by
  have hspos : (0 : ℚ) < (s : ℚ) := by exact_mod_cast hs1
  have h1 : (N : ℚ) / (s : ℚ) ≤ (tp : ℚ) := by
    have := Int.le_ceil ((N : ℚ) / (s : ℚ))
    rw [hceil] at this
    exact_mod_cast this
  have h2 : (N : ℚ) ≤ (tp : ℚ) * (s : ℚ) := (div_le_iff₀ hspos).mp h1
  exact_mod_cast h2

/-- A document found by identifier carries that identifier. -/
theorem findDoc_id (docs : Store) (oid : ℕ) (d : RecipeDoc)
    (h : findDoc docs oid = some d) : d.id = oid := by
  have := List.find?_some h
  simpa using this

/-- After replacing the document with a given identifier, lookup of
that identifier finds the replacement. -/
theorem findDoc_replaceDoc (docs : Store) (oid : ℕ) (d2 : RecipeDoc)
    (hid : d2.id = oid) (h : (findDoc docs oid).isSome) :
    findDoc (replaceDoc docs oid d2) oid = some d2 := by
  induction docs with
  | nil => simp [findDoc] at h
  | cons x t ih =>
      by_cases hx : x.id = oid
      · simp [replaceDoc, findDoc, hx, hid]
      · have h2 : (findDoc t oid).isSome := by
          simpa [findDoc, List.find?_cons, hx] using h
        simpa [replaceDoc, findDoc, List.find?_cons, hx] using ih h2

/-- With unique identifiers, removing the document with a given
identifier makes lookup of that identifier fail. -/
theorem findDoc_removeDoc (docs : Store) (oid : ℕ)
    (hnd : (docs.map RecipeDoc.id).Nodup) (h : (findDoc docs oid).isSome) :
    findDoc (removeDoc docs oid) oid = none := by
  induction docs with
  | nil => simp [findDoc] at h
  | cons x t ih =>
      rw [List.map_cons, List.nodup_cons] at hnd
      by_cases hx : x.id = oid
      · have hall : ∀ y ∈ t, ¬ (y.id == oid) = true := by
          intro y hy
          simp only [beq_iff_eq]
          intro he
          have hymem : y.id ∈ t.map RecipeDoc.id := List.mem_map_of_mem RecipeDoc.id hy
          rw [he, ← hx] at hymem
          exact hnd.1 hymem
        have hb : (x.id == oid) = true := by simp [hx]
        simp only [removeDoc, hb, if_true]
        exact List.find?_eq_none.mpr hall
      · have h2 : (findDoc t oid).isSome := by
          simpa [findDoc, List.find?_cons, hx] using h
        simpa [removeDoc, findDoc, List.find?_cons, hx] using ih hnd.2 h2

/-- Lookup in a store extended with a fresh document. -/
theorem findDoc_append (docs : Store) (d : RecipeDoc) (oid : ℕ)
    (hfresh : ∀ x ∈ docs, x.id ≠ oid) :
    findDoc (docs ++ [d]) oid = if d.id = oid then some d else none := by
  induction docs with
  | nil =>
      by_cases hd : d.id = oid
      · have hb : (d.id == oid) = true := by simp [hd]
        simp [findDoc, List.find?, hb, hd]
      · have hb : (d.id == oid) = false := by simp [hd]
        simp [findDoc, List.find?, hb, hd]
  | cons x t ih =>
      have hx : ¬ x.id = oid := hfresh x (List.mem_cons_self x t)
      have ht : ∀ y ∈ t, y.id ≠ oid := fun y hy => hfresh y (List.mem_cons_of_mem x hy)
      simpa [findDoc, List.find?_cons, hx] using ih ht

/-! ## Concrete documents used by witnesses and counterexamples -/


/-!
## The claims
-/

/-- Claim C1, counterexample: the claim as stated fails at size
supplied as the string 0 (page absent, one stored record).  The size
coerces to 0, a MongoDB limit of 0 means no limit, so the fetched page
holds one record although the claim allows at most size = 0, and
totalPages is Infinity rather than a ceiling of naturals. -/
theorem recipe_c1_counterexample :
    getAllRecipes none [soup] none (some "0") =
      .ok ⟨[soup], 1, .vnum (.num 1), .inf⟩ ∧
    ¬ ((listRecipesOf (getAllRecipes none [soup] none (some "0"))).length ≤ 0) := by
  with_unfolding_all decide

/-- Claim C1 (amended): for every list request whose parameters
coerce to positive integers — or are absent, in which case page
defaults to the number 1 and size to 10 — the handler answers exactly
the four fields recipes, totalRecipes, page and totalPages, where
recipes holds at most size records obtained after skipping
(page - 1) * size in store order, totalRecipes is the unfiltered
count, page echoes the destructured query value, and totalPages is
the ceiling of totalRecipes / size. -/
theorem recipe_c1_amended (docs : Store) (pageQ sizeQ : Option String) (p s : ℕ)
    (hp : jvToNum (queryParamVal pageQ 1) = .num (p : ℚ))
    (hs : jvToNum (queryParamVal sizeQ 10) = .num (s : ℚ))
    (hp1 : 1 ≤ p) (hs1 : 1 ≤ s) :
    getAllRecipes none docs pageQ sizeQ =
      .ok ⟨(docs.drop ((p - 1) * s)).take s, docs.length, queryParamVal pageQ 1,
           .num ((⌈(docs.length : ℚ) / (s : ℚ)⌉ : ℤ) : ℚ)⟩ ∧
    ((docs.drop ((p - 1) * s)).take s).length ≤ s ∧
    (pageQ = none → p = 1) ∧ (sizeQ = none → s = 10) := by
  refine ⟨getAll_eval docs pageQ sizeQ p s hp hs hp1 hs1,
    List.length_take_le s _, ?_, ?_⟩
  · intro h
    subst h
    simp only [queryParamVal, jvToNum, JNum.num.injEq] at hp
    exact_mod_cast hp.symm
  · intro h
    subst h
    simp only [queryParamVal, jvToNum, JNum.num.injEq] at hs
    exact_mod_cast hs.symm

/-- Witness for claim C1 at page = "1", size = "1" on a one-record
store — the concrete scenario of the specification. -/
theorem recipe_c1_amended_witness :
    jvToNum (queryParamVal (some "1") 1) = .num ((1 : ℕ) : ℚ) ∧
    jvToNum (queryParamVal (some "1") 10) = .num ((1 : ℕ) : ℚ) ∧
    (getAllRecipes none [soup] (some "1") (some "1") =
      .ok ⟨(([soup] : Store).drop ((1 - 1) * 1)).take 1, ([soup] : Store).length,
           queryParamVal (some "1") 1,
           .num ((⌈(([soup] : Store).length : ℚ) / ((1 : ℕ) : ℚ)⌉ : ℤ) : ℚ)⟩ ∧
     ((([soup] : Store).drop ((1 - 1) * 1)).take 1).length ≤ 1 ∧
     (some "1" = none → 1 = 1) ∧ ((some "1" : Option String) = none → 1 = 10)) ∧
    getAllRecipes none [soup] (some "1") (some "1") =
      .ok ⟨[soup], 1, .vstr "1", .num 1⟩ := by
  have h1 : jvToNum (queryParamVal (some "1") 1) = .num ((1 : ℕ) : ℚ) := by
    with_unfolding_all decide
  have h2 : jvToNum (queryParamVal (some "1") 10) = .num ((1 : ℕ) : ℚ) := by
    with_unfolding_all decide
  exact ⟨h1, h2,
    recipe_c1_amended [soup] (some "1") (some "1") 1 1 h1 h2 (le_refl 1) (le_refl 1),
    by with_unfolding_all decide⟩

/-- Claim C2: for every positive page size s and every collection,
with no mutation in between, the concatenation of the record lists
answered for pages 1 through the reported totalPages is exactly the
collection — every record once, no duplicates, no omissions.  Pages
are supplied as raw query strings coercing to 1 .. totalPages. -/
theorem recipe_c2_pagination_complete (docs : Store) (sr : String) (s tp : ℕ)
    (prs : List String)
    (hs : toNumber sr = .num (s : ℚ)) (hs1 : 1 ≤ s)
    (htp : totalPagesVal docs.length (queryParamVal (some sr) 10) = .num ((tp : ℕ) : ℚ))
    (hprs : prs.map toNumber = (List.range tp).map (fun i : ℕ => JNum.num ((i : ℚ) + 1))) :
    (∀ pr ∈ prs, ∃ b, getAllRecipes none docs (some pr) (some sr) = .ok b) ∧
    (prs.map (fun pr =>
        listRecipesOf (getAllRecipes none docs (some pr) (some sr)))).flatten = docs := by
  have hjs : jvToNum (queryParamVal (some sr) 10) = .num (s : ℚ) := by
    simp [queryParamVal, jvToNum, hs]
  have hsne : ((s : ℚ)) ≠ 0 := by exact_mod_cast Nat.one_le_iff_ne_zero.mp hs1
  have hceil : ⌈(docs.length : ℚ) / (s : ℚ)⌉ = (tp : ℤ) := by
    unfold totalPagesVal at htp
    rw [hjs] at htp
    simp only [jsDiv, if_neg hsne, jsCeil, JNum.num.injEq] at htp
    exact_mod_cast htp
  have hcov : docs.length ≤ tp * s := coverage _ _ _ hs1 hceil
  constructor
  · intro pr hpr
    have h1 : toNumber pr ∈ prs.map toNumber := List.mem_map_of_mem _ hpr
    rw [hprs] at h1
    rcases List.mem_map.mp h1 with ⟨i, _, hval⟩
    have h2 : toNumber pr = .num (((i + 1 : ℕ)) : ℚ) := by
      rw [← hval]; congr 1; push_cast; ring
    exact ⟨_, getAll_eval docs (some pr) (some sr) (i + 1) s
      (by simp [queryParamVal, jvToNum, h2]) hjs (by omega) hs1⟩
  · have hfact : (fun pr => listRecipesOf (getAllRecipes none docs (some pr) (some sr))) =
        (fun j => pageSlice docs j (toNumber sr)) ∘ toNumber := by
      funext pr; exact listRecipesOf_getAll docs pr sr
    rw [hfact, ← List.map_map, hprs, List.map_map]
    have h3 : (List.range tp).map ((fun j => pageSlice docs j (toNumber sr)) ∘
        (fun i : ℕ => JNum.num ((i : ℚ) + 1))) =
        (List.range tp).map (fun i : ℕ => (docs.drop (i * s)).take s) :=
      List.map_congr_left (fun (i : ℕ) (_ : i ∈ List.range tp) => by
        simp only [Function.comp_apply, hs]
        exact pageSlice_eval docs i s hs1)
    rw [h3]
    exact chunks_flatten s tp docs hcov

/-- Witness for claim C2: three records, size 2, pages "1" and "2". -/
theorem recipe_c2_pagination_complete_witness :
    toNumber "2" = .num ((2 : ℕ) : ℚ) ∧ 1 ≤ 2 ∧
    totalPagesVal (([soup, stew, cake] : Store).length) (queryParamVal (some "2") 10) =
      .num ((2 : ℕ) : ℚ) ∧
    (["1", "2"].map toNumber =
      (List.range 2).map (fun i : ℕ => JNum.num ((i : ℚ) + 1))) ∧
    ((∀ pr ∈ ["1", "2"], ∃ b,
        getAllRecipes none [soup, stew, cake] (some pr) (some "2") = .ok b) ∧
     (["1", "2"].map (fun pr => listRecipesOf
        (getAllRecipes none [soup, stew, cake] (some pr) (some "2")))).flatten =
       [soup, stew, cake]) := by
  have h1 : toNumber "2" = .num ((2 : ℕ) : ℚ) := by with_unfolding_all decide
  have h3 : totalPagesVal (([soup, stew, cake] : Store).length)
      (queryParamVal (some "2") 10) = .num ((2 : ℕ) : ℚ) := by
    with_unfolding_all decide
  have h4 : ["1", "2"].map toNumber =
      (List.range 2).map (fun i : ℕ => JNum.num ((i : ℚ) + 1)) := by
    with_unfolding_all decide
  exact ⟨h1, by omega, h3, h4,
    recipe_c2_pagination_complete [soup, stew, cake] "2" 2 2 ["1", "2"] h1 (by omega) h3 h4⟩

/-- Claim C3: a list request with size = 0 triggers division by zero
in the total-pages computation: the coerced divisor is 0, and whenever
the handler answers successfully the reported totalPages is the result
of the ceiling of a division by zero — Infinity, or NaN when the
collection is empty — never a finite number. -/
theorem recipe_c3_size_zero_division (docs : Store) (pageQ : Option String)
    (b : ListBody) (h : getAllRecipes none docs pageQ (some "0") = .ok b) :
    jvToNum (queryParamVal (some "0") 10) = .num 0 ∧
    b.totalPages = jsCeil (jsDiv (.num (docs.length : ℚ)) (.num 0)) ∧
    (b.totalPages = .inf ∨ b.totalPages = .nan) := by
  have h0 : toNumber "0" = .num 0 := by with_unfolding_all decide
  have hq : jvToNum (queryParamVal (some "0") 10) = .num 0 := by
    simp [queryParamVal, jvToNum, h0]
  unfold getAllRecipes at h
  simp only [dbFind, dbCount] at h
  rcases hf : findSkipLimit docs (skipVal pageQ (some "0"))
      (jvToNum (queryParamVal (some "0") 10)) with _ | l
  · rw [hf] at h
    simp at h
  · rw [hf] at h
    simp only [ListResult.ok.injEq] at h
    have htp : b.totalPages = totalPagesVal docs.length (queryParamVal (some "0") 10) := by
      rw [← h]
    have heval : totalPagesVal docs.length (queryParamVal (some "0") 10) =
        jsCeil (jsDiv (.num (docs.length : ℚ)) (.num 0)) := by
      unfold totalPagesVal
      rw [hq]
    refine ⟨hq, by rw [htp, heval], ?_⟩
    rw [htp, heval]
    cases hN : docs.length with
    | zero => right; simp [jsDiv, jsCeil]
    | succ k =>
        left
        have hpos : (0 : ℚ) < (k : ℚ) + 1 := by positivity
        simp [jsDiv, jsCeil, hpos]

/-- Witness for claim C3: one stored record, size "0", totalPages
Infinity. -/
theorem recipe_c3_size_zero_division_witness :
    getAllRecipes none [soup] none (some "0") =
      .ok ⟨[soup], 1, .vnum (.num 1), .inf⟩ ∧
    (jvToNum (queryParamVal (some "0") 10) = .num 0 ∧
     (ListBody.mk [soup] 1 (.vnum (.num 1)) .inf).totalPages =
       jsCeil (jsDiv (.num ((([soup] : Store).length : ℕ) : ℚ)) (.num 0)) ∧
     ((ListBody.mk [soup] 1 (.vnum (.num 1)) .inf).totalPages = .inf ∨
      (ListBody.mk [soup] 1 (.vnum (.num 1)) .inf).totalPages = .nan)) := by
  have h : getAllRecipes none [soup] none (some "0") =
      .ok ⟨[soup], 1, .vnum (.num 1), .inf⟩ := by
    with_unfolding_all decide
  exact ⟨h, recipe_c3_size_zero_division [soup] none _ h⟩

/-- Claim C4: for every well-formed identifier, get-by-id answers the
matching record when one exists and the 404 not-found status when no
record matches, never a 500.  A path string that is not a well-formed
ObjectId raises a cast error handled by the 500 path, which the
specification documents separately as the malformed-identifier
defect. -/
theorem recipe_c4_get_by_id (docs : Store) (idStr : String) (oid : ℕ)
    (hcast : castObjectId idStr = some oid) :
    (∀ d, findDoc docs oid = some d → getRecipeById none docs idStr = .ok d) ∧
    (findDoc docs oid = none →
      getRecipeById none docs idStr = .notFound "Recipe not found") ∧
    (getRecipeById none docs idStr).status ≠ 500 := by
  unfold getRecipeById
  rw [hcast]
  simp only [dbFindById]
  refine ⟨?_, ?_, ?_⟩
  · intro d hd
    rw [hd]
  · intro hd
    rw [hd]
  · rcases hd : findDoc docs oid with _ | d
    · simp [DocResult.status]
    · simp [DocResult.status]

/-- Witness for claim C4: a resolving and a non-resolving lookup of a
well-formed identifier. -/
theorem recipe_c4_get_by_id_witness :
    castObjectId "000000000000000000000001" = some 1 ∧
    getRecipeById none [soup] "000000000000000000000001" = .ok soup ∧
    getRecipeById none [] "000000000000000000000001" =
      .notFound "Recipe not found" := by
  have hc : castObjectId "000000000000000000000001" = some 1 := by
    with_unfolding_all decide
  refine ⟨hc, ?_, ?_⟩
  · exact (recipe_c4_get_by_id [soup] _ 1 hc).1 soup (by with_unfolding_all decide)
  · exact (recipe_c4_get_by_id [] _ 1 hc).2.1 (by with_unfolding_all decide)

/-- Claim C5: update replaces exactly the supplied fields — every
field of the answered record is the payload value when supplied and
the stored value otherwise — persists the merged record, and answers
the post-update state; a well-formed identifier that does not resolve
is answered not-found. -/
theorem recipe_c5_update_merge (docs : Store) (idStr : String) (oid : ℕ)
    (p : RecipePayload) (hcast : castObjectId idStr = some oid) :
    (∀ d, findDoc docs oid = some d →
      updateRecipe none docs idStr p =
        (.ok { id := d.id, name := p.name.getD d.name,
               ingredients := p.ingredients.getD d.ingredients,
               instructions := p.instructions.getD d.instructions,
               cookingTime := p.cookingTime.getD d.cookingTime,
               createdAt := p.createdAt.getD d.createdAt },
         replaceDoc docs oid (applyUpdate d p)) ∧
      findDoc (replaceDoc docs oid (applyUpdate d p)) oid =
        some (applyUpdate d p)) ∧
    (findDoc docs oid = none →
      updateRecipe none docs idStr p = (.notFound "Recipe not found", docs)) := by
  refine ⟨?_, ?_⟩
  · intro d hd
    refine ⟨?_, ?_⟩
    · unfold updateRecipe
      rw [hcast]
      simp only [dbFindById]
      rw [hd]
      rfl
    · exact findDoc_replaceDoc docs oid (applyUpdate d p)
        (by simp [applyUpdate, findDoc_id docs oid d hd])
        (by rw [hd]; rfl)
  · intro hd
    unfold updateRecipe
    rw [hcast]
    simp only [dbFindById]
    rw [hd]

/-- Witness for claim C5: updating cookingTime of the sample record. -/
theorem recipe_c5_update_merge_witness :
    castObjectId "000000000000000000000001" = some 1 ∧
    findDoc [soup] 1 = some soup ∧
    updateRecipe none [soup] "000000000000000000000001"
        { cookingTime := some 15 } =
      (.ok ⟨1, "Soup", ["water", "salt"], "Boil.", 15, 0⟩,
       [⟨1, "Soup", ["water", "salt"], "Boil.", 15, 0⟩]) := by
  have hc : castObjectId "000000000000000000000001" = some 1 := by
    with_unfolding_all decide
  have hd : findDoc [soup] 1 = some soup := by with_unfolding_all decide
  refine ⟨hc, hd, ?_⟩
  have happ := ((recipe_c5_update_merge [soup] "000000000000000000000001" 1
    { cookingTime := some 15 } hc).1 soup hd).1
  rw [happ]
  with_unfolding_all decide

/-- Claim C6, counterexample: the claim as stated fails because an
update payload that supplies createdAt does mutate createdAt — the
schema does not mark the field immutable, so the merge update
overwrites it like any other field. -/
theorem recipe_c6_counterexample :
    (updateRecipe none [soup] "000000000000000000000001"
        { createdAt := some 999 }).1 =
      .ok ⟨1, "Soup", ["water", "salt"], "Boil.", 10, 999⟩ ∧
    soup.createdAt = 0 ∧ ¬ ((999 : ℕ) = soup.createdAt) := by
  with_unfolding_all decide

/-- Claim C6 (amended): update changes only the supplied fields —
every field absent from the payload is unchanged, in particular
createdAt is unchanged whenever the payload does not supply createdAt,
and the identifier is never changed. -/
theorem recipe_c6_amended (docs : Store) (idStr : String) (oid : ℕ)
    (d : RecipeDoc) (p : RecipePayload) (hcast : castObjectId idStr = some oid)
    (hd : findDoc docs oid = some d) :
    ∃ d2, (updateRecipe none docs idStr p).1 = .ok d2 ∧
      d2.id = d.id ∧
      (p.name = none → d2.name = d.name) ∧
      (p.ingredients = none → d2.ingredients = d.ingredients) ∧
      (p.instructions = none → d2.instructions = d.instructions) ∧
      (p.cookingTime = none → d2.cookingTime = d.cookingTime) ∧
      (p.createdAt = none → d2.createdAt = d.createdAt) := by
  refine ⟨applyUpdate d p, ?_, rfl, ?_, ?_, ?_, ?_, ?_⟩
  · unfold updateRecipe
    rw [hcast]
    simp only [dbFindById]
    rw [hd]
  all_goals intro h
  all_goals simp [applyUpdate, h]

/-- Witness for claim C6 at a cookingTime-only payload. -/
theorem recipe_c6_amended_witness :
    castObjectId "000000000000000000000001" = some 1 ∧
    findDoc [soup] 1 = some soup ∧
    (∃ d2, (updateRecipe none [soup] "000000000000000000000001"
        { cookingTime := some 15 }).1 = .ok d2 ∧
      d2.id = soup.id ∧
      (({ cookingTime := some 15 } : RecipePayload).name = none → d2.name = soup.name) ∧
      (({ cookingTime := some 15 } : RecipePayload).ingredients = none →
        d2.ingredients = soup.ingredients) ∧
      (({ cookingTime := some 15 } : RecipePayload).instructions = none →
        d2.instructions = soup.instructions) ∧
      (({ cookingTime := some 15 } : RecipePayload).cookingTime = none →
        d2.cookingTime = soup.cookingTime) ∧
      (({ cookingTime := some 15 } : RecipePayload).createdAt = none →
        d2.createdAt = soup.createdAt)) := by
  have hc : castObjectId "000000000000000000000001" = some 1 := by
    with_unfolding_all decide
  have hd : findDoc [soup] 1 = some soup := by with_unfolding_all decide
  exact ⟨hc, hd, recipe_c6_amended [soup] "000000000000000000000001" 1 soup
    { cookingTime := some 15 } hc hd⟩

/-- Claim C7: for every valid payload, create answers 201 with a
record equal to the payload fields plus the store-assigned identifier
and createdAt (defaulting to the current time), appends exactly that
record to the collection, and a subsequent get-by-id with the new
identifier answers an equal record. -/
theorem recipe_c7_create_then_get (docs : Store) (newId now : ℕ)
    (idStr n ins : String) (ing : List String) (ct : ℚ) (ca : Option ℕ)
    (hn : n ≠ "") (hins : ins ≠ "") (hfresh : ∀ x ∈ docs, x.id ≠ newId)
    (hcast : castObjectId idStr = some newId) :
    createRecipe none docs newId now ⟨some n, some ing, some ins, some ct, ca⟩ =
      (.created ⟨newId, n, ing, ins, ct, ca.getD now⟩,
       docs ++ [⟨newId, n, ing, ins, ct, ca.getD now⟩]) ∧
    CreateResult.status (.created ⟨newId, n, ing, ins, ct, ca.getD now⟩) = 201 ∧
    getRecipeById none (docs ++ [⟨newId, n, ing, ins, ct, ca.getD now⟩]) idStr =
      .ok ⟨newId, n, ing, ins, ct, ca.getD now⟩ := by
  have hne : n.isEmpty = false := by
    cases hb : n.isEmpty with
    | false => rfl
    | true => exact absurd ((String.isEmpty_iff n).mp hb) hn
  have hinse : ins.isEmpty = false := by
    cases hb : ins.isEmpty with
    | false => rfl
    | true => exact absurd ((String.isEmpty_iff ins).mp hb) hins
  have hvalid : validNewRecipe ⟨some n, some ing, some ins, some ct, ca⟩ = true := by
    simp [validNewRecipe, hne, hinse]
  have hany : docs.any (fun x => x.id == newId) = false := by
    rw [List.any_eq_false]
    intro x hx
    simpa using hfresh x hx
  refine ⟨?_, rfl, ?_⟩
  · unfold createRecipe dbInsert
    rw [hvalid]
    simp only [Bool.not_true, Bool.false_eq_true, if_false, buildRecipe]
    simp [hany]
  · unfold getRecipeById
    rw [hcast]
    simp only [dbFindById]
    rw [findDoc_append docs _ newId hfresh]
    simp

/-- Witness for claim C7 with the concrete Soup payload of the
specification. -/
theorem recipe_c7_create_then_get_witness :
    ("Soup" : String) ≠ "" ∧ ("Boil." : String) ≠ "" ∧
    (∀ x ∈ ([] : Store), x.id ≠ 1) ∧
    castObjectId "000000000000000000000001" = some 1 ∧
    createRecipe none [] 1 42
        ⟨some "Soup", some ["water", "salt"], some "Boil.", some 10, none⟩ =
      (.created ⟨1, "Soup", ["water", "salt"], "Boil.", 10, 42⟩,
       [⟨1, "Soup", ["water", "salt"], "Boil.", 10, 42⟩]) ∧
    getRecipeById none [⟨1, "Soup", ["water", "salt"], "Boil.", 10, 42⟩]
        "000000000000000000000001" =
      .ok ⟨1, "Soup", ["water", "salt"], "Boil.", 10, 42⟩ := by
  have hn : ("Soup" : String) ≠ "" := by with_unfolding_all decide
  have hins : ("Boil." : String) ≠ "" := by with_unfolding_all decide
  have hfresh : ∀ x ∈ ([] : Store), x.id ≠ 1 := by simp
  have hc : castObjectId "000000000000000000000001" = some 1 := by
    with_unfolding_all decide
  have happ := recipe_c7_create_then_get [] 1 42 "000000000000000000000001"
    "Soup" "Boil." ["water", "salt"] 10 none hn hins hfresh hc
  refine ⟨hn, hins, hfresh, hc, ?_, ?_⟩
  · rw [happ.1]
    with_unfolding_all decide
  · have hg := happ.2.2
    have he : (([] : Store) ++ [(⟨1, "Soup", ["water", "salt"], "Boil.", 10,
        (none : Option ℕ).getD 42⟩ : RecipeDoc)]) =
        [(⟨1, "Soup", ["water", "salt"], "Boil.", 10, 42⟩ : RecipeDoc)] := by
      with_unfolding_all decide
    rw [he] at hg
    exact hg

/-- Claim C8: deleting a resolving identifier answers the body with
message Recipe deleted and removes the record, so a subsequent
get-by-id with the same identifier answers not-found; deleting a
well-formed identifier that does not resolve answers not-found. -/
theorem recipe_c8_delete_then_get (docs : Store) (idStr : String) (oid : ℕ)
    (hcast : castObjectId idStr = some oid)
    (hnd : (docs.map RecipeDoc.id).Nodup) :
    (∀ d, findDoc docs oid = some d →
      deleteRecipe none docs idStr = (.okMsg "Recipe deleted", removeDoc docs oid) ∧
      getRecipeById none (removeDoc docs oid) idStr = .notFound "Recipe not found") ∧
    (findDoc docs oid = none →
      deleteRecipe none docs idStr = (.notFound "Recipe not found", docs)) := by
  refine ⟨?_, ?_⟩
  · intro d hd
    refine ⟨?_, ?_⟩
    · unfold deleteRecipe
      rw [hcast]
      simp only [dbFindById]
      rw [hd]
    · unfold getRecipeById
      rw [hcast]
      simp only [dbFindById]
      rw [findDoc_removeDoc docs oid hnd (by rw [hd]; rfl)]
  · intro hd
    unfold deleteRecipe
    rw [hcast]
    simp only [dbFindById]
    rw [hd]

/-- Witness for claim C8: deleting the only stored record. -/
theorem recipe_c8_delete_then_get_witness :
    castObjectId "000000000000000000000001" = some 1 ∧
    (([soup] : Store).map RecipeDoc.id).Nodup ∧
    findDoc [soup] 1 = some soup ∧
    deleteRecipe none [soup] "000000000000000000000001" =
      (.okMsg "Recipe deleted", []) ∧
    getRecipeById none [] "000000000000000000000001" =
      .notFound "Recipe not found" := by
  have hc : castObjectId "000000000000000000000001" = some 1 := by
    with_unfolding_all decide
  have hnd : (([soup] : Store).map RecipeDoc.id).Nodup := by
    with_unfolding_all decide
  have hd : findDoc [soup] 1 = some soup := by with_unfolding_all decide
  have happ := (recipe_c8_delete_then_get [soup] "000000000000000000000001" 1
    hc hnd).1 soup hd
  have hrm : removeDoc [soup] 1 = [] := by with_unfolding_all decide
  refine ⟨hc, hnd, hd, ?_, ?_⟩
  · rw [happ.1, hrm]
  · have hg := happ.2
    rw [hrm] at hg
    exact hg

/-- Claim C9: every handler catches every failure locally and turns
it into a status plus message body: with a store failure injected,
each of the five handlers answers its 500 response carrying the
handler-specific message and the raised error text, leaving the store
unchanged — no handler lets an exception escape. -/
theorem recipe_c9_handlers_catch (m : String) (docs : Store) (newId now : ℕ)
    (p : RecipePayload) (idStr : String) (pageQ sizeQ : Option String) :
    (∃ e, createRecipe (some m) docs newId now p =
      (.err500 "Error creating recipe" e, docs)) ∧
    getAllRecipes (some m) docs pageQ sizeQ = .err500 "Error fetching recipes" m ∧
    (∃ e, getRecipeById (some m) docs idStr = .err500 "Error fetching recipe" e) ∧
    (∃ e, updateRecipe (some m) docs idStr p =
      (.err500 "Error updating recipe" e, docs)) ∧
    (∃ e, deleteRecipe (some m) docs idStr =
      (.err500 "Error deleting recipe" e, docs)) := by
  refine ⟨?_, ?_, ?_, ?_, ?_⟩
  · cases hv : validNewRecipe p with
    | false =>
        exact ⟨"Recipe validation failed", by unfold createRecipe dbInsert; rw [hv]; rfl⟩
    | true =>
        exact ⟨m, by unfold createRecipe dbInsert; rw [hv]; rfl⟩
  · unfold getAllRecipes dbFind
    rfl
  · rcases hc : castObjectId idStr with _ | oid
    · exact ⟨"Cast to ObjectId failed", by unfold getRecipeById; rw [hc]⟩
    · exact ⟨m, by unfold getRecipeById; rw [hc]; rfl⟩
  · rcases hc : castObjectId idStr with _ | oid
    · exact ⟨"Cast to ObjectId failed", by unfold updateRecipe; rw [hc]⟩
    · exact ⟨m, by unfold updateRecipe; rw [hc]; rfl⟩
  · rcases hc : castObjectId idStr with _ | oid
    · exact ⟨"Cast to ObjectId failed", by unfold deleteRecipe; rw [hc]⟩
    · exact ⟨m, by unfold deleteRecipe; rw [hc]; rfl⟩

/-- Claim C10: the page value of the list response body is the raw
query value exactly as received — the string whenever the parameter is
present, the number 1 only when absent; the destructuring defaults
apply only to absent parameters, and a present raw value flows through
the ToNumber coercion, never through the default, into the skip and
total-pages arithmetic. -/
theorem recipe_c10_raw_page_flow (docs : Store) (pageQ sizeQ : Option String)
    (b : ListBody) (h : getAllRecipes none docs pageQ sizeQ = .ok b) :
    b.page = queryParamVal pageQ 1 ∧
    (∀ s0, pageQ = some s0 → b.page = .vstr s0) ∧
    (pageQ = none → b.page = .vnum (.num 1)) ∧
    (∀ s0, pageQ = some s0 →
      skipVal pageQ sizeQ =
        jsMul (jsSub (toNumber s0) (.num 1)) (jvToNum (queryParamVal sizeQ 10))) ∧
    (∀ t0, sizeQ = some t0 →
      b.totalPages = jsCeil (jsDiv (.num (docs.length : ℚ)) (toNumber t0))) := by
  unfold getAllRecipes at h
  simp only [dbFind, dbCount] at h
  rcases hf : findSkipLimit docs (skipVal pageQ sizeQ)
      (jvToNum (queryParamVal sizeQ 10)) with _ | l
  · rw [hf] at h
    simp at h
  · rw [hf] at h
    simp only [ListResult.ok.injEq] at h
    refine ⟨by rw [← h], ?_, ?_, ?_, ?_⟩
    · intro s0 hs0
      rw [← h, hs0]
      rfl
    · intro h0
      rw [← h, h0]
      rfl
    · intro s0 hs0
      rw [hs0]
      rfl
    · intro t0 ht0
      rw [← h, ht0]
      rfl

/-- Witness for claim C10 at present-but-empty page and size values,
which bypass both defaults. -/
theorem recipe_c10_raw_page_flow_witness :
    getAllRecipes none [soup] (some "") (some "") =
      .ok ⟨[soup], 1, .vstr "", .inf⟩ ∧
    (ListBody.mk [soup] 1 (.vstr "") .inf).page = .vstr "" ∧
    skipVal (some "") (some "") =
      jsMul (jsSub (toNumber "") (.num 1)) (jvToNum (queryParamVal (some "") 10)) ∧
    (ListBody.mk [soup] 1 (.vstr "") .inf).totalPages =
      jsCeil (jsDiv (.num ((([soup] : Store).length : ℕ) : ℚ)) (toNumber "")) := by
  have h : getAllRecipes none [soup] (some "") (some "") =
      .ok ⟨[soup], 1, .vstr "", .inf⟩ := by
    with_unfolding_all decide
  have happ := recipe_c10_raw_page_flow [soup] (some "") (some "") _ h
  exact ⟨h, happ.2.1 "" rfl, happ.2.2.2.1 "" rfl, happ.2.2.2.2 "" rfl⟩
